import Mathlib

/-!
Shallow embedding of the jeopardy-server backend (src/main.py, src/queries.py,
src/models/models.py, src/agents/agents.py).

The database is modelled as a `List Clue` (the immutable `clues` table).
SQL queries from `queries.py` become Lean functions over that list.  Two
sources of environment nondeterminism are passed in explicitly:
  * `shuffle` models `ORDER BY random()` in `get_random_categories_matching_round`
    (constrained to be a permutation in theorems);
  * `pick` models SQLite's choice of a representative row for a bare-column
    `GROUP BY clue_value` in `get_clues_for_category_round_and_airdate`
    (SQLite documents this as an arbitrary row of the group; `ValidPick`
    states exactly that);
  * `judge` models the external pydantic-ai judge call in `POST /answer`;
    it may fail with a Python exception, whose class matters because
    `submit_answer` has distinct `except ValueError` / `except Exception`
    branches.

Calendar dates are modelled as `Nat` (only their total order and equality are
used by the code; `date.isoformat()` is an injective rendering).  Handlers
also return a trace of the storage/judge operations they executed, in
execution order, so that claims about query ordering are statable.
-/

namespace Jeopardy

/-- The `Clue` ORM model from `src/models/models.py` (table `clues`). -/
structure Clue where
  id : Int
  round : Int
  clue_value : Int
  is_daily_double : Bool
  category : String
  comments : String
  clue_text : String
  correct_answer : String
  air_date : Nat
  notes : String
deriving DecidableEq

/-- The public clue view built in `get_round` (main.py lines 139-149). -/
structure ClueView where
  id : Int
  clue_value : Int
  is_daily_double : Bool
  clue_text : String
  correct_answer : String
  air_date : Nat
  notes : String
deriving DecidableEq

/-- Projection of a stored clue into the public view (main.py lines 139-149). -/
def toView (c : Clue) : ClueView :=
  ⟨c.id, c.clue_value, c.is_daily_double, c.clue_text, c.correct_answer, c.air_date, c.notes⟩

/-- An HTTP error response: `HTTPException(status_code, detail)`. -/
structure HTTPError where
  status : Nat
  detail : String
deriving DecidableEq

/-- A JSON value as parsed from a request body (ints suffice for the numbers
the endpoints consume). -/
inductive JVal where
  | jnull
  | jbool (b : Bool)
  | jnum (n : Int)
  | jstr (s : String)
deriving DecidableEq

/-- Python truthiness of a JSON value (`if not body.get(...)`). A missing key
is modelled as `jnull` and is falsy like `None`. -/
def truthy : JVal → Bool
  | .jnull => false
  | .jbool b => b
  | .jnum n => n != 0
  | .jstr s => s != ""

/-- `body.get(key)` on a parsed JSON object, missing keys giving `None`. -/
def jget (body : List (String × JVal)) (k : String) : JVal :=
  ((body.find? (fun p => p.1 == k)).map (fun p => p.2)).getD JVal.jnull

/-- SQLite comparison of the INTEGER `Clue.id` column against a bound JSON
value (`Clue.id == clue_id` in `get_clue_by_id`): numeric affinity converts a
numeric text, Python booleans bind as 0/1, `None` matches nothing. -/
def jvalMatchesId (v : JVal) (i : Int) : Bool :=
  match v with
  | .jnum n => n == i
  | .jstr s => s.toInt? == some i
  | .jbool b => (if b then (1 : Int) else 0) == i
  | .jnull => false

/-- `queries.get_first_matching_category_by_name`:
`select(Clue.category).where(Clue.category == name).limit(1)`, as evaluated by
`session.scalar` (first matching row's category, or `None`).  Note: no round
filter. -/
def get_first_matching_category_by_name (db : List Clue) (category_name : String) :
    Option String :=
  ((db.filter (fun c => c.category == category_name)).head?).map (fun c => c.category)

/-- `queries.get_random_categories_matching_round`:
`select(Clue.category).where(round).group_by(category).order_by(random()).limit(n)`.
`GROUP BY` yields the distinct categories of the round; `ORDER BY random()` is
the injected `shuffle`; `LIMIT n` is `take`. -/
def get_random_categories_matching_round (db : List Clue) (round : Int)
    (num_categories : Nat) (shuffle : List String → List String) : List String :=
  (shuffle (((db.filter (fun c => c.round == round)).map (fun c => c.category)).dedup)).take
    num_categories

/-- `queries.get_all_airdates_for_category_and_round`:
`select(Clue.air_date).where(category, round).distinct().order_by(air_date.desc())`.
The result is the distinct air dates sorted descending (most recent first);
since the dates are distinct, this list is uniquely determined. -/
def get_all_airdates_for_category_and_round (db : List Clue) (category : String)
    (round : Int) : List Nat :=
  ((((db.filter (fun c => c.category == category && c.round == round)).map
      (fun c => c.air_date)).dedup).insertionSort (· ≤ ·)).reverse

/-- The filtered row set underlying `get_clues_for_category_round_and_airdate`. -/
def clueRows (db : List Clue) (category : String) (round : Int) (air_date : Nat) :
    List Clue :=
  db.filter (fun c => c.category == category && c.round == round && c.air_date == air_date)

/-- A representative-choice function is valid if it picks a member of every
nonempty group: exactly SQLite's freedom for bare columns under `GROUP BY`. -/
def ValidPick (pick : List Clue → Clue) : Prop :=
  ∀ l : List Clue, l ≠ [] → pick l ∈ l

/-- `queries.get_clues_for_category_round_and_airdate`:
`select(Clue).where(category, round, air_date).group_by(clue_value).order_by(clue_value)`.
One row per distinct `clue_value`, values ascending; the representative row of
each value group is chosen by the storage engine (`pick`). -/
def get_clues_for_category_round_and_airdate (db : List Clue) (category : String)
    (round : Int) (air_date : Nat) (pick : List Clue → Clue) : List Clue :=
  (((clueRows db category round air_date).map (fun c => c.clue_value)).dedup.insertionSort
      (· ≤ ·)).map
    (fun v => pick ((clueRows db category round air_date).filter (fun c => c.clue_value == v)))

/-- `queries.get_clue_by_id` evaluated by `session.scalar`: the first stored
clue whose `id` column matches the bound request value. -/
def get_clue_by_id (db : List Clue) (clue_id : JVal) : Option Clue :=
  db.find? (fun c => jvalMatchesId clue_id c.id)

/-- One storage query issued while serving `GET /round`, in execution order. -/
inductive QueryEvent where
  | sampleCategories (round : Int) (limit : Nat)
  | categoryExists (name : String)
  | fetchAirdates (category : String) (round : Int)
  | fetchClues (category : String) (round : Int) (air_date : Nat)
deriving DecidableEq

/-- The air-date loop of `get_round` (main.py lines 118-123): fetch clues for
each candidate date in order, stopping at the first date with exactly 5 clues;
when the loop ends without a break, `clues` keeps the last fetch's result.
Returns the final `clues` together with the list of dates actually queried. -/
def tryDates (db : List Clue) (cat : String) (round : Int) (pick : List Clue → Clue) :
    List Nat → List Clue × List Nat
  | [] => ([], [])
  | d :: ds =>
    let clues := get_clues_for_category_round_and_airdate db cat round d pick
    if clues.length = 5 ∨ ds = [] then
      (clues, [d])
    else
      let r := tryDates db cat round pick ds
      (r.1, d :: r.2)

/-- Ordering of clue views by point value, used for the final
`clues_list.sort(key=lambda x: x["clue_value"])` (main.py line 152). -/
def viewLE (a b : ClueView) : Prop := a.clue_value ≤ b.clue_value

instance : DecidableRel viewLE := fun a b =>
  inferInstanceAs (Decidable (a.clue_value ≤ b.clue_value))

instance : IsTotal ClueView viewLE := ⟨fun a b => le_total a.clue_value b.clue_value⟩

instance : IsTrans ClueView viewLE := ⟨fun _ _ _ h1 h2 => le_trans h1 h2⟩

/-- The body of the per-category loop of `get_round` (main.py lines 108-153):
list the candidate air dates, run the date loop, project to views and sort by
value.  Also returns the storage queries issued for this category. -/
def assembleCategory (db : List Clue) (cat : String) (round : Int)
    (pick : List Clue → Clue) : List ClueView × List QueryEvent :=
  let dates := get_all_airdates_for_category_and_round db cat round
  let td := tryDates db cat round pick dates
  ((td.1.map toView).insertionSort viewLE,
    QueryEvent.fetchAirdates cat round :: td.2.map (QueryEvent.fetchClues cat round))

/-- Python `dict` assignment `round_data[category] = clues_list`: overwrite an
existing key in place, else append. -/
def dictInsert (m : List (String × List ClueView)) (k : String) (v : List ClueView) :
    List (String × List ClueView) :=
  if m.any (fun p => p.1 == k) then
    m.map (fun p => if p.1 == k then (k, v) else p)
  else
    m ++ [(k, v)]

/-- The `round_data` dict built by iterating the selected categories
(main.py lines 107-153). -/
def assembleData (db : List Clue) (round : Int) (pick : List Clue → Clue)
    (acc : List (String × List ClueView)) : List String → List (String × List ClueView)
  | [] => acc
  | c :: cs =>
    assembleData db round pick (dictInsert acc c (assembleCategory db c round pick).1) cs

/-- The storage queries issued by the per-category loop, in order. -/
def assembleTrace (db : List Clue) (round : Int) (pick : List Clue → Clue) :
    List String → List QueryEvent
  | [] => []
  | c :: cs => (assembleCategory db c round pick).2 ++ assembleTrace db round pick cs

/-- Python truthiness of the optional `category` query parameter
(`if not category` / `if category:`): `None` and `""` both count as absent. -/
def normCategory : Option String → Option String
  | some c => if c = "" then none else some c
  | none => none

/-- Detail string of the 400 for an invalid round value (main.py line 75). -/
def invalidRoundDetail : String :=
  "Round value must be 1 (Single Jeopardy) or 2 (Double Jeopardy)"

/-- Detail string of the catch-all 500 in `get_round` (main.py line 162). -/
def internalErrorDetail : String := "Internal server error"

/-- Detail string of the 404 raised for an unknown requested category
(main.py line 94); it is swallowed by the blanket `except` before reaching
the client. -/
def categoryNotFoundDetail (cat : String) : String :=
  "Category " ++ "'" ++ cat ++ "'" ++ " not found"

/-- Detail string of the 404 raised when no categories resolve
(main.py line 104); also swallowed by the blanket `except`. -/
def noCategoriesDetail : String := "No categories found for this round"

/-- The body of the outer `try` of `get_round` (main.py lines 78-158), with
the requested category already normalized for Python truthiness.  Exceptions
become `Except.error`; the caller applies the blanket `except Exception`. -/
def get_round_body (db : List Clue) (round_value : Int) (cat? : Option String)
    (shuffle : List String → List String) (pick : List Clue → Clue) :
    Except HTTPError (List (String × List ClueView)) × List QueryEvent :=
  let limit : Nat := match cat? with | none => 6 | some _ => 5
  let sampled := get_random_categories_matching_round db round_value limit shuffle
  match cat? with
  | some cat =>
    match get_first_matching_category_by_name db cat with
    | none =>
      (.error ⟨404, categoryNotFoundDetail cat⟩,
        [QueryEvent.sampleCategories round_value limit, QueryEvent.categoryExists cat])
    | some _ =>
      let cats := cat :: (sampled.filter (fun c => c != cat)).take 5
      (.ok (assembleData db round_value pick [] cats),
        QueryEvent.sampleCategories round_value limit :: QueryEvent.categoryExists cat ::
          assembleTrace db round_value pick cats)
  | none =>
    if sampled.isEmpty then
      (.error ⟨404, noCategoriesDetail⟩, [QueryEvent.sampleCategories round_value limit])
    else
      (.ok (assembleData db round_value pick [] sampled),
        QueryEvent.sampleCategories round_value limit ::
          assembleTrace db round_value pick sampled)

/-- The blanket `except Exception` of `get_round` (main.py lines 160-162): a
success passes through, any raised exception — the explicit 404s included —
becomes a 500 with a generic detail. -/
def blanketExcept (r : Except HTTPError (List (String × List ClueView))) :
    Except HTTPError (List (String × List ClueView)) :=
  match r with
  | .ok d => .ok d
  | .error _ => .error ⟨500, internalErrorDetail⟩

/-- `GET /round/{round_value}?category=...` (main.py lines 70-162).  The 400
for an invalid round is raised before the `try`; every exception raised inside
the `try` — including the explicit `HTTPException(404)`s, since there is no
`except HTTPException: raise` here — is converted by `except Exception` into a
500 with a generic detail. -/
def get_round (db : List Clue) (round_value : Int) (category? : Option String)
    (shuffle : List String → List String) (pick : List Clue → Clue) :
    Except HTTPError (List (String × List ClueView)) × List QueryEvent :=
  if round_value = 1 ∨ round_value = 2 then
    (blanketExcept (get_round_body db round_value (normCategory category?) shuffle pick).1,
      (get_round_body db round_value (normCategory category?) shuffle pick).2)
  else
    (.error ⟨400, invalidRoundDetail⟩, [])

/-- `JudgeContext` from `src/agents/agents.py` (a pydantic model of five
string fields). -/
structure JudgeContext where
  category : String
  clue : String
  comments : String
  correct_answer : String
  user_answer : String
deriving DecidableEq

/-- The `JudgeContext` built in `submit_answer` (main.py lines 216-222):
`comments=clue.notes if clue.comments else ""`. -/
def mkJudgeContext (c : Clue) (ua : String) : JudgeContext :=
  ⟨c.category, c.clue_text, if c.comments ≠ "" then c.notes else "", c.correct_answer, ua⟩

/-- `Judgement` from `src/agents/agents.py`: the strictly typed judge output. -/
structure Judgement where
  correct : Bool
  feedback : String
deriving DecidableEq

/-- A Python exception escaping the judge call, classified by whether it is a
`ValueError` (that class determines which `except` branch of `submit_answer`
handles it). -/
inductive JudgeExc where
  | valueError (msg : String)
  | other (msg : String)
deriving DecidableEq

/-- One store/judge operation performed while serving `POST /answer`. -/
inductive AnswerEvent where
  | lookupClue (v : JVal)
  | judgeCall
deriving DecidableEq

/-- Rendering of a non-string JSON value inside a pydantic error message. -/
def jrender : JVal → String
  | .jnull => "None"
  | .jbool b => if b then "True" else "False"
  | .jnum n => toString n
  | .jstr s => s

/-- `str(e)` for the pydantic `ValidationError` (a `ValueError`) raised by
`JudgeContext(user_answer=...)` when the submitted `user_answer` is not a
string: pydantic v2 does not coerce non-strings into `str` fields. -/
def pydanticUserAnswerError (v : JVal) : String :=
  "1 validation error for JudgeContext: user_answer: Input should be a valid string, input_value=" ++
    jrender v

/-- Detail string of the catch-all 500 in `submit_answer` (main.py line 261). -/
def answerUnexpectedDetail : String :=
  "An unexpected error occurred while processing your answer"

/-- `POST /answer` (main.py lines 165-262), with the request body already
parsed into a JSON object.  Control flow mirrors the source: falsy-field
validation first (400), then the clue lookup (404 on miss), then the
`JudgeContext` construction (pydantic `ValidationError` is a `ValueError`,
so it reaches `except ValueError` and its message becomes the 400 detail),
then the judge call, whose exceptions are re-raised: a `ValueError` lands in
`except ValueError` (400, detail `str(e)`), anything else in the generic
`except Exception` (500). -/
def submit_answer (db : List Clue) (body : List (String × JVal))
    (judge : JudgeContext → Except JudgeExc Judgement) :
    Except HTTPError (List (String × JVal)) × List AnswerEvent :=
  if truthy (jget body "clue_id") = false then
    (.error ⟨400, "clue_id is required"⟩, [])
  else if truthy (jget body "user_answer") = false then
    (.error ⟨400, "user_answer is required"⟩, [])
  else
    match get_clue_by_id db (jget body "clue_id") with
    | none => (.error ⟨404, "Clue not found"⟩, [AnswerEvent.lookupClue (jget body "clue_id")])
    | some clue =>
      match jget body "user_answer" with
      | .jstr ua =>
        match judge (mkJudgeContext clue ua) with
        | .ok j =>
          (.ok [("correct", JVal.jbool j.correct), ("feedback", JVal.jstr j.feedback),
              ("user_answer", JVal.jstr ua), ("correct_answer", JVal.jstr clue.correct_answer)],
            [AnswerEvent.lookupClue (jget body "clue_id"), AnswerEvent.judgeCall])
        | .error (.valueError msg) =>
          (.error ⟨400, msg⟩,
            [AnswerEvent.lookupClue (jget body "clue_id"), AnswerEvent.judgeCall])
        | .error (.other _) =>
          (.error ⟨500, answerUnexpectedDetail⟩,
            [AnswerEvent.lookupClue (jget body "clue_id"), AnswerEvent.judgeCall])
      | v =>
        (.error ⟨400, pydanticUserAnswerError v⟩,
          [AnswerEvent.lookupClue (jget body "clue_id")])

/-- A default clue, for total representative-choice functions. -/
def clue0 : Clue := ⟨0, 0, 0, false, "", "", "", "", 0, ""⟩

/-- Representative choice taking the first row of each group. -/
def headPick (l : List Clue) : Clue := l.headD clue0

/-- Representative choice taking the last row of each group (also a behavior
SQLite is allowed to exhibit for bare columns under `GROUP BY`). -/
def lastPick (l : List Clue) : Clue := l.reverse.headD clue0

/-- A judge stub that marks every answer wrong with fixed feedback. -/
def judgeNo : JudgeContext → Except JudgeExc Judgement := fun _ => .ok ⟨false, "nope"⟩

/-- A judge behavior that fails with a `ValueError` whose message echoes the
correct answer it was handed (as a pydantic validation error can). -/
def judgeLeak : JudgeContext → Except JudgeExc Judgement :=
  fun ctx => .error (.valueError ("invalid context: " ++ ctx.correct_answer))

/-- Sample store: category `A`, round 1, airing on date 20 with only 4 clues
and on date 10 with a full board of 5. -/
def dbA : List Clue :=
  [⟨1, 1, 100, false, "A", "", "q1", "a1", 20, ""⟩,
   ⟨2, 1, 200, false, "A", "", "q2", "a2", 20, ""⟩,
   ⟨3, 1, 300, false, "A", "", "q3", "a3", 20, ""⟩,
   ⟨4, 1, 400, false, "A", "", "q4", "a4", 20, ""⟩,
   ⟨5, 1, 100, false, "A", "", "q5", "a5", 10, ""⟩,
   ⟨6, 1, 200, false, "A", "", "q6", "a6", 10, ""⟩,
   ⟨7, 1, 300, false, "A", "", "q7", "a7", 10, ""⟩,
   ⟨8, 1, 400, false, "A", "", "q8", "a8", 10, ""⟩,
   ⟨9, 1, 500, false, "A", "", "q9", "a9", 10, ""⟩]

/-- Sample store with a single round-1 clue in category `HISTORY`. -/
def dbHist : List Clue := [⟨1, 1, 100, false, "HISTORY", "", "q", "a", 5, ""⟩]

/-- Sample store with two round-1 clues of category `A` sharing air date 7 and
clue value 100, under distinct identifiers 1 and 2. -/
def dbDup : List Clue :=
  [⟨1, 1, 100, false, "A", "", "q1", "a1", 7, ""⟩,
   ⟨2, 1, 100, false, "A", "", "q2", "a2", 7, ""⟩]

/-- Sample store with one clue whose stored correct answer is `Paris`. -/
def dbParis : List Clue :=
  [⟨1, 1, 200, false, "GEOGRAPHY", "", "Capital of France", "Paris", 3, ""⟩]

/-- A well-formed `POST /answer` body addressing clue 1. -/
def bodyLyon : List (String × JVal) :=
  [("clue_id", JVal.jnum 1), ("user_answer", JVal.jstr "Lyon")]

/-- A well-formed `POST /answer` body addressing a nonexistent clue id. -/
def bodyMissing : List (String × JVal) :=
  [("clue_id", JVal.jnum 99), ("user_answer", JVal.jstr "x")]

theorem validPick_headPick : ValidPick headPick := by
  intro l hl
  cases l with
  | nil => exact absurd rfl hl
  | cons a l => simp [headPick]

theorem mem_clueRows {db : List Clue} {cat : String} {rv : Int} {d : Nat} {x : Clue} :
    x ∈ clueRows db cat rv d ↔
      x ∈ db ∧ x.category = cat ∧ x.round = rv ∧ x.air_date = d := by
  simp [clueRows, List.mem_filter, and_assoc]

theorem airdates_sorted {db : List Clue} {cat : String} {rv : Int} :
    (get_all_airdates_for_category_and_round db cat rv).Sorted (· > ·) := by
  unfold get_all_airdates_for_category_and_round
  have hs : ((((db.filter (fun c => c.category == cat && c.round == rv)).map
      (fun c => c.air_date)).dedup).insertionSort (· ≤ ·)).Sorted (· ≤ ·) :=
    List.sorted_insertionSort _ _
  have hnd : ((((db.filter (fun c => c.category == cat && c.round == rv)).map
      (fun c => c.air_date)).dedup).insertionSort (· ≤ ·)).Nodup :=
    ((List.perm_insertionSort _ _).symm).nodup (List.nodup_dedup _)
  have hlt := hs.lt_of_le hnd
  exact List.pairwise_reverse.mpr hlt

theorem mem_airdates {db : List Clue} {cat : String} {rv : Int} {d : Nat} :
    d ∈ get_all_airdates_for_category_and_round db cat rv ↔
      ∃ x ∈ db, x.category = cat ∧ x.round = rv ∧ x.air_date = d := by
  unfold get_all_airdates_for_category_and_round
  rw [List.mem_reverse, (List.perm_insertionSort _ _).mem_iff, List.mem_dedup]
  simp only [List.mem_map, List.mem_filter, Bool.and_eq_true, beq_iff_eq]
  constructor
  · rintro ⟨x, ⟨hx, hcat, hrv⟩, hd⟩
    exact ⟨x, hx, hcat, hrv, hd⟩
  · rintro ⟨x, hx, hcat, hrv, hd⟩
    exact ⟨x, ⟨hx, hcat, hrv⟩, hd⟩

theorem clueGroup_ne_nil {db : List Clue} {cat : String} {rv : Int} {d : Nat} {v : Int}
    (hv : v ∈ (((clueRows db cat rv d).map (fun c => c.clue_value)).dedup).insertionSort
      (· ≤ ·)) :
    (clueRows db cat rv d).filter (fun c => c.clue_value == v) ≠ [] := by
  have hmem : v ∈ (clueRows db cat rv d).map (fun c => c.clue_value) :=
    List.mem_dedup.mp ((List.perm_insertionSort _ _).mem_iff.mp hv)
  obtain ⟨r, hr, hrv⟩ := List.mem_map.mp hmem
  exact List.ne_nil_of_mem (List.mem_filter.mpr ⟨hr, by simp [hrv]⟩)

theorem get_clues_map_value {db : List Clue} {cat : String} {rv : Int} {d : Nat}
    {pick : List Clue → Clue} (hp : ValidPick pick) :
    (get_clues_for_category_round_and_airdate db cat rv d pick).map (fun c => c.clue_value)
      = (((clueRows db cat rv d).map (fun c => c.clue_value)).dedup).insertionSort (· ≤ ·) := by
  unfold get_clues_for_category_round_and_airdate
  rw [List.map_map]
  conv_rhs =>
    rw [← List.map_id ((((clueRows db cat rv d).map (fun c => c.clue_value)).dedup).insertionSort
      (· ≤ ·))]
  refine List.map_congr_left ?_
  intro v hv
  have hne := clueGroup_ne_nil hv
  have hpm := hp _ hne
  have := (List.mem_filter.mp hpm).2
  simpa using this

theorem get_clues_subset {db : List Clue} {cat : String} {rv : Int} {d : Nat}
    {pick : List Clue → Clue} (hp : ValidPick pick) :
    ∀ x ∈ get_clues_for_category_round_and_airdate db cat rv d pick,
      x ∈ clueRows db cat rv d := by
  intro x hx
  unfold get_clues_for_category_round_and_airdate at hx
  obtain ⟨v, hv, hxe⟩ := List.mem_map.mp hx
  have hne := clueGroup_ne_nil hv
  exact List.mem_of_mem_filter (hxe ▸ hp _ hne)

theorem get_clues_values_sorted {db : List Clue} {cat : String} {rv : Int} {d : Nat}
    {pick : List Clue → Clue} (hp : ValidPick pick) :
    ((get_clues_for_category_round_and_airdate db cat rv d pick).map
      (fun c => c.clue_value)).Sorted (· < ·) := by
  rw [get_clues_map_value hp]
  exact (List.sorted_insertionSort _ _).lt_of_le
    (((List.perm_insertionSort _ _).symm).nodup (List.nodup_dedup _))

theorem get_clues_values_nodup {db : List Clue} {cat : String} {rv : Int} {d : Nat}
    {pick : List Clue → Clue} (hp : ValidPick pick) :
    ((get_clues_for_category_round_and_airdate db cat rv d pick).map
      (fun c => c.clue_value)).Nodup := by
  rw [get_clues_map_value hp]
  exact ((List.perm_insertionSort _ _).symm).nodup (List.nodup_dedup _)

theorem get_clues_values_complete {db : List Clue} {cat : String} {rv : Int} {d : Nat}
    {pick : List Clue → Clue} (hp : ValidPick pick) {v : Int} :
    v ∈ (get_clues_for_category_round_and_airdate db cat rv d pick).map
        (fun c => c.clue_value) ↔
      ∃ x ∈ db, x.category = cat ∧ x.round = rv ∧ x.air_date = d ∧ x.clue_value = v := by
  rw [get_clues_map_value hp, (List.perm_insertionSort _ _).mem_iff, List.mem_dedup]
  simp only [List.mem_map]
  constructor
  · rintro ⟨x, hx, hv⟩
    obtain ⟨hdb, hcat, hrv, hd⟩ := mem_clueRows.mp hx
    exact ⟨x, hdb, hcat, hrv, hd, hv⟩
  · rintro ⟨x, hdb, hcat, hrv, hd, hv⟩
    exact ⟨x, mem_clueRows.mpr ⟨hdb, hcat, hrv, hd⟩, hv⟩

theorem tryDates_accepts_first {db : List Clue} {cat : String} {rv : Int}
    {pick : List Clue → Clue} :
    ∀ (pre : List Nat) (d : Nat) (post : List Nat),
      (∀ p ∈ pre, (get_clues_for_category_round_and_airdate db cat rv p pick).length ≠ 5) →
      (get_clues_for_category_round_and_airdate db cat rv d pick).length = 5 →
      tryDates db cat rv pick (pre ++ d :: post)
        = (get_clues_for_category_round_and_airdate db cat rv d pick, pre ++ [d])
  | [], d, post, _, hd => by
    simp [tryDates, hd]
  | p :: pre, d, post, hpre, hd => by
    have hp : (get_clues_for_category_round_and_airdate db cat rv p pick).length ≠ 5 :=
      hpre p (List.mem_cons_self p pre)
    have hrec := tryDates_accepts_first pre d post
      (fun q hq => hpre q (List.mem_cons_of_mem p hq)) hd
    have hne : pre ++ d :: post ≠ [] := by simp
    simp [tryDates, hp, hne, hrec]

theorem tryDates_cases {db : List Clue} {cat : String} {rv : Int}
    {pick : List Clue → Clue} :
    ∀ dates : List Nat,
      dates = [] ∨
        ∃ d ∈ dates, (tryDates db cat rv pick dates).1
          = get_clues_for_category_round_and_airdate db cat rv d pick
  | [] => Or.inl rfl
  | d :: ds => by
    right
    by_cases hcond :
        (get_clues_for_category_round_and_airdate db cat rv d pick).length = 5 ∨ ds = []
    · exact ⟨d, List.mem_cons_self d ds, by simp [tryDates, hcond]⟩
    · rcases @tryDates_cases db cat rv pick ds with
        hnil | ⟨d2, hd2, heq⟩
      · exact absurd (Or.inr hnil) hcond
      · exact ⟨d2, List.mem_cons_of_mem d hd2, by simp [tryDates, hcond]; exact heq⟩

theorem tryDates_length_of_exists {db : List Clue} {cat : String} {rv : Int}
    {pick : List Clue → Clue} :
    ∀ dates : List Nat,
      (∃ d ∈ dates, (get_clues_for_category_round_and_airdate db cat rv d pick).length = 5) →
      ((tryDates db cat rv pick dates).1).length = 5
  | [], h => by simp at h
  | d :: ds, h => by
    by_cases hd : (get_clues_for_category_round_and_airdate db cat rv d pick).length = 5
    · simp [tryDates, hd]
    · rcases h with ⟨d2, hd2, hlen⟩
      rcases List.mem_cons.mp hd2 with rfl | hmem
      · exact absurd hlen hd
      · have hds : ds ≠ [] := List.ne_nil_of_mem hmem
        have hrec := @tryDates_length_of_exists db cat rv pick ds ⟨d2, hmem, hlen⟩
        have hcond : ¬((get_clues_for_category_round_and_airdate db cat rv d pick).length = 5
            ∨ ds = []) := by
          simp [hd, hds]
        simp [tryDates, hcond, hrec]

theorem assembleCategory_views {db : List Clue} {cat : String} {rv : Int}
    {pick : List Clue → Clue} :
    (assembleCategory db cat rv pick).1
      = (((tryDates db cat rv pick
          (get_all_airdates_for_category_and_round db cat rv)).1).map toView).insertionSort
        viewLE := rfl

theorem assembleCategory_spec {db : List Clue} {cat : String} {rv : Int}
    {pick : List Clue → Clue} (hp : ValidPick pick) :
    ∃ clues : List Clue,
      (assembleCategory db cat rv pick).1 = (clues.map toView).insertionSort viewLE ∧
      (clues.map (fun c => c.clue_value)).Nodup ∧
      (∀ x ∈ clues, x ∈ db ∧ x.category = cat ∧ x.round = rv) ∧
      (∀ x ∈ clues, ∀ y ∈ clues, x.air_date = y.air_date) ∧
      ((∃ d ∈ get_all_airdates_for_category_and_round db cat rv,
          (get_clues_for_category_round_and_airdate db cat rv d pick).length = 5) →
        clues.length = 5) := by
  refine ⟨(tryDates db cat rv pick (get_all_airdates_for_category_and_round db cat rv)).1,
    assembleCategory_views, ?_, ?_, ?_, ?_⟩
  case _ =>
    rcases @tryDates_cases db cat rv pick
        (get_all_airdates_for_category_and_round db cat rv) with hnil | ⟨d, _, heq⟩
    · rw [hnil]; simp [tryDates]
    · rw [heq]; exact get_clues_values_nodup hp
  case _ =>
    rcases @tryDates_cases db cat rv pick
        (get_all_airdates_for_category_and_round db cat rv) with hnil | ⟨d, _, heq⟩
    · rw [hnil]; simp [tryDates]
    · rw [heq]
      intro x hx
      obtain ⟨hdb, hcat, hrv, _⟩ := mem_clueRows.mp (get_clues_subset hp x hx)
      exact ⟨hdb, hcat, hrv⟩
  case _ =>
    rcases @tryDates_cases db cat rv pick
        (get_all_airdates_for_category_and_round db cat rv) with hnil | ⟨d, _, heq⟩
    · rw [hnil]; simp [tryDates]
    · rw [heq]
      intro x hx y hy
      have hxd := (mem_clueRows.mp (get_clues_subset hp x hx)).2.2.2
      have hyd := (mem_clueRows.mp (get_clues_subset hp y hy)).2.2.2
      rw [hxd, hyd]
  case _ =>
    exact fun h => tryDates_length_of_exists _ h

theorem map_value_toView (clues : List Clue) :
    (clues.map toView).map (fun v => v.clue_value) = clues.map (fun c => c.clue_value) := by
  simp [List.map_map, toView, Function.comp]

theorem assembleCategory_values_nodup {db : List Clue} {cat : String} {rv : Int}
    {pick : List Clue → Clue} (hp : ValidPick pick) :
    (((assembleCategory db cat rv pick).1).map (fun v => v.clue_value)).Nodup := by
  obtain ⟨clues, hviews, hnd, _, _, _⟩ := assembleCategory_spec hp
  rw [hviews]
  have hperm := (List.perm_insertionSort viewLE (clues.map toView)).map
    (fun v : ClueView => v.clue_value)
  rw [map_value_toView] at hperm
  exact hperm.symm.nodup hnd

theorem assembleCategory_values_sorted {db : List Clue} {cat : String} {rv : Int}
    {pick : List Clue → Clue} (hp : ValidPick pick) :
    (((assembleCategory db cat rv pick).1).map (fun v => v.clue_value)).Sorted (· < ·) := by
  have hnd := @assembleCategory_values_nodup db cat rv pick hp
  have hsort : ((assembleCategory db cat rv pick).1).Sorted viewLE := by
    rw [assembleCategory_views]
    exact List.sorted_insertionSort viewLE _
  have hle : (((assembleCategory db cat rv pick).1).map (fun v => v.clue_value)).Sorted
      (· ≤ ·) := by
    refine List.pairwise_map.mpr ?_
    exact hsort.imp (fun h => h)
  exact hle.lt_of_le hnd

theorem assembleCategory_mem {db : List Clue} {cat : String} {rv : Int}
    {pick : List Clue → Clue} (hp : ValidPick pick) :
    ∀ v ∈ (assembleCategory db cat rv pick).1,
      ∃ x, x ∈ db ∧ x.category = cat ∧ x.round = rv ∧ toView x = v := by
  obtain ⟨clues, hviews, _, hmem, _, _⟩ := assembleCategory_spec hp
  intro v hv
  rw [hviews] at hv
  have hv2 : v ∈ clues.map toView := (List.perm_insertionSort viewLE _).mem_iff.mp hv
  obtain ⟨x, hx, hxe⟩ := List.mem_map.mp hv2
  obtain ⟨hdb, hcat, hrv⟩ := hmem x hx
  exact ⟨x, hdb, hcat, hrv, hxe⟩

theorem assembleCategory_airdate {db : List Clue} {cat : String} {rv : Int}
    {pick : List Clue → Clue} (hp : ValidPick pick) :
    ∀ v ∈ (assembleCategory db cat rv pick).1, ∀ w ∈ (assembleCategory db cat rv pick).1,
      v.air_date = w.air_date := by
  obtain ⟨clues, hviews, _, _, hdate, _⟩ := assembleCategory_spec hp
  intro v hv w hw
  rw [hviews] at hv hw
  obtain ⟨x, hx, hxe⟩ := List.mem_map.mp ((List.perm_insertionSort viewLE _).mem_iff.mp hv)
  obtain ⟨y, hy, hye⟩ := List.mem_map.mp ((List.perm_insertionSort viewLE _).mem_iff.mp hw)
  have : x.air_date = y.air_date := hdate x hx y hy
  rw [← hxe, ← hye]
  exact this

theorem assembleCategory_ids_nodup {db : List Clue} {cat : String} {rv : Int}
    {pick : List Clue → Clue} (hp : ValidPick pick)
    (hids : (db.map (fun c => c.id)).Nodup) :
    (((assembleCategory db cat rv pick).1).map (fun v => v.id)).Nodup := by
  have hvnd : ((assembleCategory db cat rv pick).1).Nodup :=
    List.Nodup.of_map _ (assembleCategory_values_nodup hp)
  refine hvnd.map_on ?_
  intro v hv w hw hvw
  obtain ⟨x, hxdb, _, _, hxe⟩ := assembleCategory_mem hp v hv
  obtain ⟨y, hydb, _, _, hye⟩ := assembleCategory_mem hp w hw
  have hxy : x.id = y.id := by
    have h1 : (toView x).id = x.id := rfl
    have h2 : (toView y).id = y.id := rfl
    rw [← h1, ← h2, hxe, hye]
    exact hvw
  have := List.inj_on_of_nodup_map hids hxdb hydb hxy
  rw [← hxe, ← hye, this]

theorem assembleCategory_length {db : List Clue} {cat : String} {rv : Int}
    {pick : List Clue → Clue}
    (h : ∃ d ∈ get_all_airdates_for_category_and_round db cat rv,
      (get_clues_for_category_round_and_airdate db cat rv d pick).length = 5) :
    ((assembleCategory db cat rv pick).1).length = 5 := by
  rw [assembleCategory_views]
  rw [(List.perm_insertionSort viewLE _).length_eq, List.length_map]
  exact tryDates_length_of_exists _ h

theorem mem_dictInsert {m : List (String × List ClueView)} {k : String}
    {v : List ClueView} {x : String × List ClueView} (h : x ∈ dictInsert m k v) :
    x ∈ m ∨ x = (k, v) := by
  unfold dictInsert at h
  by_cases hc : m.any (fun p => p.1 == k)
  · rw [if_pos hc] at h
    obtain ⟨p, hp, hpe⟩ := List.mem_map.mp h
    by_cases hk : (p.1 == k) = true
    · right; rw [← hpe]; simp [hk]
    · left
      rw [← hpe]
      simp only [hk, if_false]
      exact hp
  · rw [if_neg hc] at h
    rcases List.mem_append.mp h with h1 | h2
    · exact Or.inl h1
    · right; simpa using h2

theorem dictInsert_keys_of_not_mem {m : List (String × List ClueView)} {k : String}
    {v : List ClueView} (h : k ∉ m.map (fun p => p.1)) :
    (dictInsert m k v).map (fun p => p.1) = m.map (fun p => p.1) ++ [k] := by
  have hc : m.any (fun p => p.1 == k) = false := by
    rw [List.any_eq_false]
    intro p hp
    simp only [beq_iff_eq]
    intro he
    exact h (List.mem_map.mpr ⟨p, hp, he⟩)
  unfold dictInsert
  simp [hc]

theorem assembleData_keys {db : List Clue} {rv : Int} {pick : List Clue → Clue} :
    ∀ (cs : List String) (acc : List (String × List ClueView)),
      cs.Nodup → (∀ c ∈ cs, c ∉ acc.map (fun p => p.1)) →
      (assembleData db rv pick acc cs).map (fun p => p.1) = acc.map (fun p => p.1) ++ cs
  | [], acc, _, _ => by simp [assembleData]
  | c :: cs, acc, hnd, hdisj => by
    have hc : c ∉ acc.map (fun p => p.1) := hdisj c (List.mem_cons_self c cs)
    have hkeys := dictInsert_keys_of_not_mem (v := (assembleCategory db c rv pick).1) hc
    have hnd2 := (List.nodup_cons.mp hnd).2
    have hcn := (List.nodup_cons.mp hnd).1
    have hrec := @assembleData_keys db rv pick cs
      (dictInsert acc c (assembleCategory db c rv pick).1)
      hnd2 (by
        intro c2 hc2
        rw [hkeys]
        simp only [List.mem_append, List.mem_singleton]
        rintro (h1 | h2)
        · exact hdisj c2 (List.mem_cons_of_mem c hc2) h1
        · exact hcn (h2 ▸ hc2))
    calc (assembleData db rv pick acc (c :: cs)).map (fun p => p.1)
      = (assembleData db rv pick (dictInsert acc c (assembleCategory db c rv pick).1)
          cs).map (fun p => p.1) := rfl
    _ = (dictInsert acc c (assembleCategory db c rv pick).1).map (fun p => p.1) ++ cs :=
        hrec
    _ = (acc.map (fun p => p.1) ++ [c]) ++ cs := by rw [hkeys]
    _ = acc.map (fun p => p.1) ++ c :: cs := by simp

theorem mem_assembleData {db : List Clue} {rv : Int} {pick : List Clue → Clue} :
    ∀ (cs : List String) (acc : List (String × List ClueView)) (x : String × List ClueView),
      x ∈ assembleData db rv pick acc cs →
      x ∈ acc ∨ (x.1 ∈ cs ∧ x.2 = (assembleCategory db x.1 rv pick).1)
  | [], _, x, h => Or.inl (by simpa [assembleData] using h)
  | c :: cs, acc, x, h => by
    rcases mem_assembleData cs _ x h with hacc | ⟨h1, h2⟩
    · rcases mem_dictInsert hacc with h1 | h2
      · exact Or.inl h1
      · right
        rw [h2]
        exact ⟨List.mem_cons_self c cs, rfl⟩
    · exact Or.inr ⟨List.mem_cons_of_mem c h1, h2⟩

theorem sampled_nodup {db : List Clue} {rv : Int} {n : Nat}
    {shuffle : List String → List String} (hsh : ∀ l, (shuffle l).Perm l) :
    (get_random_categories_matching_round db rv n shuffle).Nodup := by
  unfold get_random_categories_matching_round
  exact ((hsh _).symm.nodup (List.nodup_dedup _)).sublist (List.take_sublist _ _)

theorem sampled_length {db : List Clue} {rv : Int} {n : Nat}
    {shuffle : List String → List String} :
    (get_random_categories_matching_round db rv n shuffle).length ≤ n := by
  unfold get_random_categories_matching_round
  rw [List.length_take]
  exact min_le_left _ _

theorem get_round_ok_cases {db : List Clue} {rv : Int} {cat? : Option String}
    {shuffle : List String → List String} {pick : List Clue → Clue}
    {data : List (String × List ClueView)}
    (h : (get_round db rv cat? shuffle pick).1 = Except.ok data) :
    ∃ cats : List String,
      data = assembleData db rv pick [] cats ∧
      ((normCategory cat? = none ∧
          cats = get_random_categories_matching_round db rv 6 shuffle) ∨
        ∃ cat, normCategory cat? = some cat ∧
          get_first_matching_category_by_name db cat ≠ none ∧
          cats = cat ::
            ((get_random_categories_matching_round db rv 5 shuffle).filter
              (fun c => c != cat)).take 5) := by
  unfold get_round at h
  by_cases hrv : rv = 1 ∨ rv = 2
  · rw [if_pos hrv] at h
    cases hc : normCategory cat? with
    | none =>
      rw [hc] at h
      unfold get_round_body at h
      by_cases he : (get_random_categories_matching_round db rv 6 shuffle).isEmpty
      · simp [he, blanketExcept] at h
      · simp only [he, if_false, Bool.false_eq_true, blanketExcept, Except.ok.injEq] at h
        exact ⟨get_random_categories_matching_round db rv 6 shuffle, h.symm,
          Or.inl ⟨rfl, rfl⟩⟩
    | some cat =>
      rw [hc] at h
      unfold get_round_body at h
      cases hf : get_first_matching_category_by_name db cat with
      | none => simp [hf, blanketExcept] at h
      | some s =>
        simp only [hf, blanketExcept, Except.ok.injEq] at h
        exact ⟨cat :: ((get_random_categories_matching_round db rv 5 shuffle).filter
          (fun c => c != cat)).take 5, h.symm, Or.inr ⟨cat, rfl, by simp [hf], rfl⟩⟩
  · rw [if_neg hrv] at h
    simp at h

theorem get_round_error_details {db : List Clue} {rv : Int} {cat? : Option String}
    {shuffle : List String → List String} {pick : List Clue → Clue} {e : HTTPError}
    {tr : List QueryEvent} (h : get_round db rv cat? shuffle pick = (.error e, tr)) :
    e = ⟨400, invalidRoundDetail⟩ ∨ e = ⟨500, internalErrorDetail⟩ := by
  unfold get_round at h
  by_cases hrv : rv = 1 ∨ rv = 2
  · rw [if_pos hrv] at h
    right
    cases hb : (get_round_body db rv (normCategory cat?) shuffle pick).1 with
    | ok d => rw [hb] at h; simp [blanketExcept] at h
    | error e2 =>
      rw [hb] at h
      simp only [blanketExcept, Prod.mk.injEq, Except.error.injEq] at h
      exact h.1.symm
  · rw [if_neg hrv] at h
    left
    simp only [Prod.mk.injEq, Except.error.injEq] at h
    exact h.1.symm

theorem submit_answer_error_details {db : List Clue} {body : List (String × JVal)}
    {judge : JudgeContext → Except JudgeExc Judgement} {e : HTTPError} {tr : List AnswerEvent}
    (h : submit_answer db body judge = (.error e, tr)) :
    e.detail = "clue_id is required" ∨ e.detail = "user_answer is required" ∨
    e.detail = "Clue not found" ∨ e.detail = answerUnexpectedDetail ∨
    e.detail = pydanticUserAnswerError (jget body "user_answer") ∨
    ∃ ctx, judge ctx = Except.error (JudgeExc.valueError e.detail) := by
  unfold submit_answer at h
  by_cases h1 : truthy (jget body "clue_id") = false
  · rw [if_pos h1] at h
    simp only [Prod.mk.injEq, Except.error.injEq] at h
    exact Or.inl (h.1 ▸ rfl)
  · rw [if_neg h1] at h
    by_cases h2 : truthy (jget body "user_answer") = false
    · rw [if_pos h2] at h
      simp only [Prod.mk.injEq, Except.error.injEq] at h
      exact Or.inr (Or.inl (h.1 ▸ rfl))
    · rw [if_neg h2] at h
      cases hclue : get_clue_by_id db (jget body "clue_id") with
      | none =>
        rw [hclue] at h
        simp only [Prod.mk.injEq, Except.error.injEq] at h
        exact Or.inr (Or.inr (Or.inl (h.1 ▸ rfl)))
      | some clue =>
        rw [hclue] at h
        simp only [] at h
        cases hua : jget body "user_answer" with
        | jstr ua =>
          rw [hua] at h
          simp only [] at h
          cases hj : judge (mkJudgeContext clue ua) with
          | ok j => rw [hj] at h; simp at h
          | error exc =>
            rw [hj] at h
            cases exc with
            | valueError msg =>
              simp only [Prod.mk.injEq, Except.error.injEq] at h
              refine Or.inr (Or.inr (Or.inr (Or.inr (Or.inr
                ⟨mkJudgeContext clue ua, ?_⟩))))
              rw [hj, ← h.1]
            | other msg =>
              simp only [Prod.mk.injEq, Except.error.injEq] at h
              exact Or.inr (Or.inr (Or.inr (Or.inl (h.1 ▸ rfl))))
        | jnull =>
          rw [hua] at h
          simp only [Prod.mk.injEq, Except.error.injEq] at h
          refine Or.inr (Or.inr (Or.inr (Or.inr (Or.inl ?_))))
          rw [← h.1]
        | jbool b =>
          rw [hua] at h
          simp only [Prod.mk.injEq, Except.error.injEq] at h
          refine Or.inr (Or.inr (Or.inr (Or.inr (Or.inl ?_))))
          rw [← h.1]
        | jnum n =>
          rw [hua] at h
          simp only [Prod.mk.injEq, Except.error.injEq] at h
          refine Or.inr (Or.inr (Or.inr (Or.inr (Or.inl ?_))))
          rw [← h.1]

theorem submit_answer_ok {db : List Clue} {body : List (String × JVal)}
    {judge : JudgeContext → Except JudgeExc Judgement} {resp : List (String × JVal)}
    {tr : List AnswerEvent} (h : submit_answer db body judge = (.ok resp, tr)) :
    ∃ clue j ua,
      get_clue_by_id db (jget body "clue_id") = some clue ∧ clue ∈ db ∧
      jget body "user_answer" = JVal.jstr ua ∧
      judge (mkJudgeContext clue ua) = .ok j ∧
      resp = [("correct", JVal.jbool j.correct), ("feedback", JVal.jstr j.feedback),
        ("user_answer", JVal.jstr ua), ("correct_answer", JVal.jstr clue.correct_answer)] := by
  unfold submit_answer at h
  by_cases h1 : truthy (jget body "clue_id") = false
  · rw [if_pos h1] at h; simp at h
  · rw [if_neg h1] at h
    by_cases h2 : truthy (jget body "user_answer") = false
    · rw [if_pos h2] at h; simp at h
    · rw [if_neg h2] at h
      cases hclue : get_clue_by_id db (jget body "clue_id") with
      | none => rw [hclue] at h; simp at h
      | some clue =>
        rw [hclue] at h
        simp only [] at h
        cases hua : jget body "user_answer" with
        | jstr ua =>
          rw [hua] at h
          simp only [] at h
          cases hj : judge (mkJudgeContext clue ua) with
          | ok j =>
            rw [hj] at h
            simp only [Prod.mk.injEq, Except.ok.injEq] at h
            exact ⟨clue, j, ua, rfl, List.mem_of_find?_eq_some hclue, rfl, hj, h.1.symm⟩
          | error exc =>
            rw [hj] at h
            cases exc with
            | valueError msg => simp at h
            | other msg => simp at h
        | jnull => rw [hua] at h; simp at h
        | jbool b => rw [hua] at h; simp at h
        | jnum n => rw [hua] at h; simp at h

/-- C1 (amended): every error detail the service emits is one of a fixed set
of constant strings, with two exceptions in `POST /answer`: the pydantic
rendering of a non-string `user_answer`, and — through `except ValueError`,
which copies `str(e)` into the detail — the verbatim message of a `ValueError`
raised by the judge call.  In particular every `GET /round` error detail is
one of the two fixed literals, and no handler interpolates a clue field into
any detail. -/
theorem C1_error_details :
    (∀ (db : List Clue) (rv : Int) (cat? : Option String)
        (shuffle : List String → List String) (pick : List Clue → Clue)
        (e : HTTPError) (tr : List QueryEvent),
      get_round db rv cat? shuffle pick = (.error e, tr) →
      e.detail = invalidRoundDetail ∨ e.detail = internalErrorDetail) ∧
    (∀ (db : List Clue) (body : List (String × JVal))
        (judge : JudgeContext → Except JudgeExc Judgement) (e : HTTPError)
        (tr : List AnswerEvent),
      submit_answer db body judge = (.error e, tr) →
      e.detail = "clue_id is required" ∨ e.detail = "user_answer is required" ∨
      e.detail = "Clue not found" ∨ e.detail = answerUnexpectedDetail ∨
      e.detail = pydanticUserAnswerError (jget body "user_answer") ∨
      ∃ ctx, judge ctx = Except.error (JudgeExc.valueError e.detail)) := by
  constructor
  · intro db rv cat? shuffle pick e tr h
    rcases get_round_error_details h with he | he
    · exact Or.inl (by rw [he])
    · exact Or.inr (by rw [he])
  · intro db body judge e tr h
    exact submit_answer_error_details h

/-- C1 counterexample: when the judge call raises a `ValueError` whose message
echoes the correct answer it was handed, `POST /answer` returns 400 with that
message as the detail, so the stored correct answer `Paris` appears verbatim
in the error payload. -/
theorem C1_counterexample :
    submit_answer dbParis bodyLyon judgeLeak =
      (.error ⟨400, "invalid context: " ++ "Paris"⟩,
        [AnswerEvent.lookupClue (JVal.jnum 1), AnswerEvent.judgeCall]) ∧
    dbParis.map (fun c => c.correct_answer) = ["Paris"] :=
  ⟨rfl, rfl⟩

theorem C1_witness :
    ((HTTPError.mk 400 invalidRoundDetail).detail = invalidRoundDetail ∨
      (HTTPError.mk 400 invalidRoundDetail).detail = internalErrorDetail) ∧
    ((HTTPError.mk 404 "Clue not found").detail = "clue_id is required" ∨
      (HTTPError.mk 404 "Clue not found").detail = "user_answer is required" ∨
      (HTTPError.mk 404 "Clue not found").detail = "Clue not found" ∨
      (HTTPError.mk 404 "Clue not found").detail = answerUnexpectedDetail ∨
      (HTTPError.mk 404 "Clue not found").detail
        = pydanticUserAnswerError (jget bodyMissing "user_answer") ∨
      ∃ ctx, judgeNo ctx
        = Except.error (JudgeExc.valueError (HTTPError.mk 404 "Clue not found").detail)) :=
  ⟨C1_error_details.1 [] 3 none id headPick ⟨400, invalidRoundDetail⟩ [] rfl,
   C1_error_details.2 dbParis bodyMissing judgeNo ⟨404, "Clue not found"⟩
     [AnswerEvent.lookupClue (JVal.jnum 99)] rfl⟩

/-- C2 (code evaluation at the failing inputs): (1) requesting category
`HISTORY` for round 2 when `HISTORY` has only round-1 clues returns 200 with
an empty clue list — the existence check ignores the round — instead of the
404 the claim requires; (2) requesting a nonexistent category returns 500
`Internal server error` — the raised 404 is swallowed by the blanket
`except Exception` — instead of 404; (3) likewise when zero categories
resolve for the round. -/
theorem C2_code_divergence :
    get_round dbHist 2 (some "HISTORY") id headPick =
      (.ok [("HISTORY", [])],
        [QueryEvent.sampleCategories 2 5, QueryEvent.categoryExists "HISTORY",
          QueryEvent.fetchAirdates "HISTORY" 2]) ∧
    get_round dbHist 1 (some "SCIENCE") id headPick =
      (.error ⟨500, internalErrorDetail⟩,
        [QueryEvent.sampleCategories 1 5, QueryEvent.categoryExists "SCIENCE"]) ∧
    get_round ([] : List Clue) 1 none id headPick =
      (.error ⟨500, internalErrorDetail⟩, [QueryEvent.sampleCategories 1 6]) :=
  ⟨rfl, rfl, rfl⟩

/-- C3: the candidate broadcast dates for a category are exactly the distinct
air dates of that (category, round), ordered most-recent-first, and the date
loop accepts the first date in that order yielding exactly 5 clues, issuing no
clue query for any later date. -/
theorem C3_airdate_selection (db : List Clue) (cat : String) (rv : Int)
    (pick : List Clue → Clue) (pre : List Nat) (d : Nat) (post : List Nat) :
    (get_all_airdates_for_category_and_round db cat rv).Sorted (· > ·) ∧
    (∀ d0, d0 ∈ get_all_airdates_for_category_and_round db cat rv ↔
      ∃ x ∈ db, x.category = cat ∧ x.round = rv ∧ x.air_date = d0) ∧
    (get_all_airdates_for_category_and_round db cat rv = pre ++ d :: post →
      (∀ p ∈ pre,
        (get_clues_for_category_round_and_airdate db cat rv p pick).length ≠ 5) →
      (get_clues_for_category_round_and_airdate db cat rv d pick).length = 5 →
      tryDates db cat rv pick (get_all_airdates_for_category_and_round db cat rv) =
        (get_clues_for_category_round_and_airdate db cat rv d pick, pre ++ [d])) := by
  refine ⟨airdates_sorted, fun d0 => mem_airdates, fun he h1 h2 => ?_⟩
  rw [he]
  exact tryDates_accepts_first pre d post h1 h2

theorem C3_witness :
    tryDates dbA "A" 1 headPick (get_all_airdates_for_category_and_round dbA "A" 1) =
      (get_clues_for_category_round_and_airdate dbA "A" 1 10 headPick, [20] ++ [10]) :=
  (C3_airdate_selection dbA "A" 1 headPick [20] 10 []).2.2 (by decide) (by decide)
    (by decide)

/-- C4: in every successful `GET /round` result, each category's clue list is
sorted strictly ascending by `clue_value`, and whenever the category is not
incomplete — some candidate date yields exactly 5 clues — the list has length
5 with 5 pairwise-distinct clue values. -/
theorem C4_sorted_and_complete (db : List Clue) (rv : Int) (cat? : Option String)
    (shuffle : List String → List String) (pick : List Clue → Clue)
    (data : List (String × List ClueView)) (hp : ValidPick pick)
    (h : (get_round db rv cat? shuffle pick).1 = Except.ok data) :
    ∀ p ∈ data,
      ((p.2.map (fun v => v.clue_value)).Sorted (· < ·)) ∧
      ((∃ d ∈ get_all_airdates_for_category_and_round db p.1 rv,
          (get_clues_for_category_round_and_airdate db p.1 rv d pick).length = 5) →
        p.2.length = 5 ∧ (p.2.map (fun v => v.clue_value)).Nodup) := by
  intro p hpmem
  obtain ⟨cats, hdata, _⟩ := get_round_ok_cases h
  rcases mem_assembleData cats [] p (hdata ▸ hpmem) with hemp | ⟨_, hval⟩
  · simp at hemp
  · rw [hval]
    exact ⟨assembleCategory_values_sorted hp, fun hex =>
      ⟨assembleCategory_length hex, assembleCategory_values_nodup hp⟩⟩

theorem C4_witness :
    (((assembleCategory dbA "A" 1 headPick).1.map
      (fun v => v.clue_value)).Sorted (· < ·)) ∧
    (assembleCategory dbA "A" 1 headPick).1.length = 5 := by
  have h := C4_sorted_and_complete dbA 1 none id headPick
    [("A", (assembleCategory dbA "A" 1 headPick).1)] validPick_headPick rfl
    ("A", (assembleCategory dbA "A" 1 headPick).1) (List.mem_singleton.mpr rfl)
  exact ⟨h.1, (h.2 ⟨10, by decide, by decide⟩).1⟩

/-- C5: in every successful `GET /round` result, every clue view listed under
category key C projects a stored clue with category C and the requested round,
all views in C's list share one air date, and no two share an id or a clue
value (assuming the primary-key invariant: stored ids are unique). -/
theorem C5_round_coherence (db : List Clue) (rv : Int) (cat? : Option String)
    (shuffle : List String → List String) (pick : List Clue → Clue)
    (data : List (String × List ClueView)) (hp : ValidPick pick)
    (hids : (db.map (fun c => c.id)).Nodup)
    (h : (get_round db rv cat? shuffle pick).1 = Except.ok data) :
    ∀ p ∈ data,
      (∀ v ∈ p.2, ∃ x, x ∈ db ∧ x.category = p.1 ∧ x.round = rv ∧ toView x = v) ∧
      (∀ v ∈ p.2, ∀ w ∈ p.2, v.air_date = w.air_date) ∧
      (p.2.map (fun v => v.id)).Nodup ∧
      (p.2.map (fun v => v.clue_value)).Nodup := by
  intro p hpmem
  obtain ⟨cats, hdata, _⟩ := get_round_ok_cases h
  rcases mem_assembleData cats [] p (hdata ▸ hpmem) with hemp | ⟨_, hval⟩
  · simp at hemp
  · rw [hval]
    exact ⟨assembleCategory_mem hp, assembleCategory_airdate hp,
      assembleCategory_ids_nodup hp hids, assembleCategory_values_nodup hp⟩

theorem C5_witness :
    ((assembleCategory dbA "A" 1 headPick).1.map (fun v => v.id)).Nodup ∧
    ((assembleCategory dbA "A" 1 headPick).1.map (fun v => v.clue_value)).Nodup := by
  have h := C5_round_coherence dbA 1 none id headPick
    [("A", (assembleCategory dbA "A" 1 headPick).1)] validPick_headPick (by decide) rfl
    ("A", (assembleCategory dbA "A" 1 headPick).1) (List.mem_singleton.mpr rfl)
  exact ⟨h.2.2.1, h.2.2.2⟩

/-- C6: every successful `GET /round` result has at most 6 keys, pairwise
distinct, and whenever a category was requested (a non-empty string: Python
truthiness treats an empty one as absent) and exists in the store, it is among
the keys. -/
theorem C6_key_bounds (db : List Clue) (rv : Int) (cat? : Option String)
    (shuffle : List String → List String) (pick : List Clue → Clue)
    (data : List (String × List ClueView)) (hsh : ∀ l, (shuffle l).Perm l)
    (h : (get_round db rv cat? shuffle pick).1 = Except.ok data) :
    (data.map (fun p => p.1)).length ≤ 6 ∧ (data.map (fun p => p.1)).Nodup ∧
    (∀ cat, normCategory cat? = some cat →
      get_first_matching_category_by_name db cat ≠ none →
      cat ∈ data.map (fun p => p.1)) := by
  obtain ⟨cats, hdata, hcases⟩ := get_round_ok_cases h
  have hnodup : cats.Nodup := by
    rcases hcases with ⟨_, hc⟩ | ⟨cat, _, _, hc⟩
    · rw [hc]; exact sampled_nodup hsh
    · rw [hc]
      refine List.nodup_cons.mpr ⟨?_, ?_⟩
      · intro hmem
        have h1 : cat ∈ (get_random_categories_matching_round db rv 5 shuffle).filter
            (fun c => c != cat) := List.take_subset _ _ hmem
        have := (List.mem_filter.mp h1).2
        simp at this
      · exact ((sampled_nodup hsh).sublist (List.filter_sublist _)).sublist
          (List.take_sublist _ _)
  have hkeys : data.map (fun p => p.1) = cats := by
    rw [hdata]
    have := @assembleData_keys db rv pick cats [] hnodup
      (by intro c _; simp)
    simpa using this
  refine ⟨?_, ?_, ?_⟩
  · rw [hkeys]
    rcases hcases with ⟨_, hc⟩ | ⟨cat, _, _, hc⟩
    · rw [hc]; exact sampled_length
    · rw [hc]
      simp only [List.length_cons]
      have hlen : (((get_random_categories_matching_round db rv 5 shuffle).filter
          (fun c => c != cat)).take 5).length ≤ 5 := by
        rw [List.length_take]; exact min_le_left _ _
      omega
  · rw [hkeys]; exact hnodup
  · intro cat hcat _
    rw [hkeys]
    rcases hcases with ⟨hn, _⟩ | ⟨cat2, hc2, _, hc⟩
    · rw [hn] at hcat; simp at hcat
    · rw [hc2] at hcat
      injection hcat with hcat
      rw [hc, ← hcat]
      exact List.mem_cons_self _ _

theorem C6_witness :
    (([("A", (assembleCategory dbA "A" 1 headPick).1)].map (fun p => p.1)).length ≤ 6) ∧
    ([("A", (assembleCategory dbA "A" 1 headPick).1)].map (fun p => p.1)).Nodup ∧
    "A" ∈ [("A", (assembleCategory dbA "A" 1 headPick).1)].map (fun p => p.1) := by
  have h1 := C6_key_bounds dbA 1 none id headPick
    [("A", (assembleCategory dbA "A" 1 headPick).1)] (fun l => List.Perm.refl l) rfl
  have h2 := C6_key_bounds dbA 1 (some "A") id headPick
    [("A", (assembleCategory dbA "A" 1 headPick).1)] (fun l => List.Perm.refl l) rfl
  exact ⟨h1.1, h1.2.1, h2.2.2 "A" rfl (by decide)⟩

/-- C7 (amended): when the requested category does not exist in the store, the
handler fails only after the random-category sampling query has already
executed — the trace is exactly one sampling query followed by the existence
check, with no air-date or clue queries — and the raised not-found condition
surfaces as a 500 through the blanket exception handler. -/
theorem C7_sampling_before_check (db : List Clue) (rv : Int) (cat : String)
    (shuffle : List String → List String) (pick : List Clue → Clue)
    (hrv : rv = 1 ∨ rv = 2) (hcat : cat ≠ "")
    (hnf : get_first_matching_category_by_name db cat = none) :
    get_round db rv (some cat) shuffle pick =
      (.error ⟨500, internalErrorDetail⟩,
        [QueryEvent.sampleCategories rv 5, QueryEvent.categoryExists cat]) := by
  unfold get_round
  rw [if_pos hrv]
  have hn : normCategory (some cat) = some cat := by simp [normCategory, hcat]
  rw [hn]
  unfold get_round_body
  simp only [hnf, blanketExcept]

/-- C7 counterexample: with category `SCIENCE` absent from the store, the
request does fail, but its trace begins with the random-category sampling
query — sampling happens before the not-found failure, not after. -/
theorem C7_counterexample :
    get_round dbHist 1 (some "SCIENCE") id lastPick =
      (.error ⟨500, internalErrorDetail⟩,
        [QueryEvent.sampleCategories 1 5, QueryEvent.categoryExists "SCIENCE"]) ∧
    (get_round dbHist 1 (some "SCIENCE") id lastPick).2.head? =
      some (QueryEvent.sampleCategories 1 5) :=
  ⟨rfl, rfl⟩

theorem C7_witness :
    get_round dbParis 2 (some "NOPE") id headPick =
      (.error ⟨500, internalErrorDetail⟩,
        [QueryEvent.sampleCategories 2 5, QueryEvent.categoryExists "NOPE"]) :=
  C7_sampling_before_check dbParis 2 "NOPE" id headPick (Or.inr rfl) (by decide)
    (by decide)

/-- C8 (amended): each clue fetch returns exactly one clue per distinct
clue_value of that (category, round, air_date) — values strictly ascending,
every stored value represented, every returned row drawn from the filtered
rows — but the representative inside a value group is whichever row the
storage engine picks (SQLite bare-column `GROUP BY`), not necessarily the one
with the lowest identifier. -/
theorem C8_value_grouping (db : List Clue) (cat : String) (rv : Int) (d : Nat)
    (pick : List Clue → Clue) (hp : ValidPick pick) :
    ((get_clues_for_category_round_and_airdate db cat rv d pick).map
      (fun c => c.clue_value)).Sorted (· < ·) ∧
    (∀ x ∈ get_clues_for_category_round_and_airdate db cat rv d pick,
      x ∈ clueRows db cat rv d) ∧
    (∀ v, v ∈ (get_clues_for_category_round_and_airdate db cat rv d pick).map
        (fun c => c.clue_value) ↔
      ∃ x ∈ db, x.category = cat ∧ x.round = rv ∧ x.air_date = d ∧ x.clue_value = v) :=
  ⟨get_clues_values_sorted hp, get_clues_subset hp, fun _ => get_clues_values_complete hp⟩

/-- C8 counterexample: two stored clues share (category `A`, round 1, air date
7, clue value 100) under ids 1 < 2; with the last-row representative choice —
a behavior SQLite's bare-column `GROUP BY` permits — the fetch returns the
clue with id 2, so the lowest identifier does not win the tie. -/
theorem C8_counterexample :
    (get_clues_for_category_round_and_airdate dbDup "A" 1 7 lastPick).map
      (fun c => c.id) = [2] ∧
    dbDup.map (fun c => c.id) = [1, 2] ∧
    dbDup.map (fun c => c.clue_value) = [100, 100] ∧
    lastPick ((clueRows dbDup "A" 1 7).filter (fun c => c.clue_value == 100)) ∈
      (clueRows dbDup "A" 1 7).filter (fun c => c.clue_value == 100) :=
  ⟨rfl, rfl, rfl, by decide⟩

theorem C8_witness :
    ((get_clues_for_category_round_and_airdate dbDup "A" 1 7 headPick).map
      (fun c => c.clue_value)).Sorted (· < ·) :=
  (C8_value_grouping dbDup "A" 1 7 headPick validPick_headPick).1

/-- C9: every 200 response of `POST /answer` is exactly the four-field object
`correct`, `feedback`, `user_answer`, `correct_answer`, where `correct` and
`feedback` come from the judge's structured output, `user_answer` equals the
submitted answer string and `correct_answer` equals the stored clue's correct
answer. -/
theorem C9_success_shape (db : List Clue) (body : List (String × JVal))
    (judge : JudgeContext → Except JudgeExc Judgement)
    (resp : List (String × JVal)) (tr : List AnswerEvent)
    (h : submit_answer db body judge = (.ok resp, tr)) :
    ∃ clue j ua,
      get_clue_by_id db (jget body "clue_id") = some clue ∧ clue ∈ db ∧
      jget body "user_answer" = JVal.jstr ua ∧
      judge (mkJudgeContext clue ua) = .ok j ∧
      resp = [("correct", JVal.jbool j.correct), ("feedback", JVal.jstr j.feedback),
        ("user_answer", JVal.jstr ua),
        ("correct_answer", JVal.jstr clue.correct_answer)] :=
  submit_answer_ok h

theorem C9_witness :
    (submit_answer dbParis bodyLyon judgeNo).1 =
      Except.ok [("correct", JVal.jbool false), ("feedback", JVal.jstr "nope"),
        ("user_answer", JVal.jstr "Lyon"), ("correct_answer", JVal.jstr "Paris")] ∧
    (∃ clue j ua,
      get_clue_by_id dbParis (jget bodyLyon "clue_id") = some clue ∧ clue ∈ dbParis ∧
      jget bodyLyon "user_answer" = JVal.jstr ua ∧
      judgeNo (mkJudgeContext clue ua) = .ok j ∧
      [("correct", JVal.jbool false), ("feedback", JVal.jstr "nope"),
        ("user_answer", JVal.jstr "Lyon"), ("correct_answer", JVal.jstr "Paris")] =
        [("correct", JVal.jbool j.correct), ("feedback", JVal.jstr j.feedback),
          ("user_answer", JVal.jstr ua),
          ("correct_answer", JVal.jstr clue.correct_answer)]) :=
  ⟨rfl, C9_success_shape dbParis bodyLyon judgeNo _ _ rfl⟩

/-- C10: `POST /answer` treats any falsy `clue_id` value — missing, null,
the integer 0, `false`, or the empty string — as absent, answering 400 with
detail `clue_id is required` before any store lookup or judge call (the
operation trace is empty); likewise a falsy `user_answer` yields 400 with
detail `user_answer is required`. -/
theorem C10_falsy_validation (db : List Clue) (body : List (String × JVal))
    (judge : JudgeContext → Except JudgeExc Judgement) :
    (truthy (jget body "clue_id") = false →
      submit_answer db body judge = (.error ⟨400, "clue_id is required"⟩, [])) ∧
    (truthy (jget body "clue_id") = true →
      truthy (jget body "user_answer") = false →
      submit_answer db body judge = (.error ⟨400, "user_answer is required"⟩, [])) ∧
    truthy JVal.jnull = false ∧ truthy (JVal.jnum 0) = false ∧
    truthy (JVal.jbool false) = false ∧ truthy (JVal.jstr "") = false := by
  refine ⟨?_, ?_, rfl, by decide, rfl, by decide⟩
  · intro h1
    unfold submit_answer
    rw [if_pos h1]
  · intro h1 h2
    unfold submit_answer
    rw [if_neg (by rw [h1]; simp), if_pos h2]

theorem C10_witness :
    submit_answer dbParis [("clue_id", JVal.jnum 0), ("user_answer", JVal.jstr "x")]
      judgeNo = (.error ⟨400, "clue_id is required"⟩, []) ∧
    submit_answer dbParis [("clue_id", JVal.jnum 1), ("user_answer", JVal.jstr "")]
      judgeNo = (.error ⟨400, "user_answer is required"⟩, []) :=
  ⟨(C10_falsy_validation dbParis
      [("clue_id", JVal.jnum 0), ("user_answer", JVal.jstr "x")] judgeNo).1 (by decide),
   (C10_falsy_validation dbParis
      [("clue_id", JVal.jnum 1), ("user_answer", JVal.jstr "")] judgeNo).2.1
     (by decide) (by decide)⟩

end Jeopardy
